import Mathlib

set_option maxRecDepth 10000

/-!
Formal model of the battery-dashboard ingestion pipeline (`src/app.py`).

Conventions of the shallow embedding:
* Python floats are idealized as exact rationals (`Rat`).
* A pandas missing value (`NaN` / `NaT`) is `Option.none`.
* An exception escaping a modelled function is `Except.error ()`.
* Rational values are constructed through `mkRat` on integer arithmetic
  (so that every definition evaluates by `decide`); the lemmas `ratSub_eq`,
  `floatVal_eq`, `applyExp_eq`, `ratHalfSum_eq` identify these constructions
  with the corresponding field operations.
* Python special float tokens (`inf` / `nan`) are outside the modelled float
  grammar; in `parse_matlab_time` such tokens also end in a raised exception
  in the source (at `int()` instead of `float()`), so the `Except`-level
  behaviour is unchanged.
-/

/-! ## Exact rational constructions and their field-operation readings -/

/-- `a - b` computed on numerators/denominators (reducible by the kernel). -/
def ratSub (a b : Rat) : Rat := mkRat (a.num * b.den - b.num * a.den) (a.den * b.den)

/-- `a * k` for an integer `k`, computed on numerators/denominators. -/
def ratMulInt (a : Rat) (k : Int) : Rat := mkRat (a.num * k) a.den

/-- Value of an unsigned decimal literal with integer part `ip`, fractional
digits spelling `fp`, and `fc` fractional digits. -/
def floatVal (ip fp fc : Nat) : Rat := mkRat (ip * 10 ^ fc + fp) (10 ^ fc)

/-- Scale `v` by `10 ^ e`, dividing when `neg` is true. -/
def applyExp (v : Rat) (neg : Bool) (e : Nat) : Rat :=
  if neg then mkRat v.num (v.den * 10 ^ e) else mkRat (v.num * 10 ^ e) v.den

/-- `(a + b) / 2` computed on numerators/denominators. -/
def ratHalfSum (a b : Rat) : Rat := mkRat (a.num * b.den + b.num * a.den) (a.den * b.den * 2)

theorem ratSub_eq (a b : Rat) : ratSub a b = a - b := by
  rw [ratSub, Rat.mkRat_eq_div]
  conv_rhs => rw [← Rat.num_div_den a, ← Rat.num_div_den b]
  rw [div_sub_div _ _ (by positivity) (by positivity)]
  push_cast
  ring_nf

theorem ratMulInt_eq (a : Rat) (k : Int) : ratMulInt a k = a * k := by
  rw [ratMulInt, Rat.mkRat_eq_div]
  conv_rhs => rw [← Rat.num_div_den a]
  push_cast
  rw [div_mul_eq_mul_div]

theorem floatVal_eq (ip fp fc : Nat) : floatVal ip fp fc = (ip : Rat) + (fp : Rat) / 10 ^ fc := by
  rw [floatVal, Rat.mkRat_eq_div]
  push_cast
  rw [add_div]
  congr 1
  rw [mul_div_assoc]
  simp [div_self]

theorem applyExp_eq (v : Rat) (neg : Bool) (e : Nat) :
    applyExp v neg e = if neg then v / 10 ^ e else v * 10 ^ e := by
  rcases neg with _ | _ <;> simp only [applyExp, if_true, if_false, Bool.false_eq_true]
  · rw [Rat.mkRat_eq_div]
    conv_rhs => rw [← Rat.num_div_den v]
    push_cast
    rw [div_mul_eq_mul_div]
  · rw [Rat.mkRat_eq_div]
    conv_rhs => rw [← Rat.num_div_den v]
    push_cast
    rw [div_div]

theorem mkRat_intCast_eq (i : Int) : mkRat i 1 = (i : Rat) := by
  rw [Rat.mkRat_eq_div]
  simp

theorem ratHalfSum_eq (a b : Rat) : ratHalfSum a b = (a + b) / 2 := by
  rw [ratHalfSum, Rat.mkRat_eq_div]
  conv_rhs => rw [← Rat.num_div_den a, ← Rat.num_div_den b]
  rw [div_add_div _ _ (by positivity) (by positivity), div_div]
  push_cast
  ring_nf

/-! ## Python string primitives -/

/-- Characters treated as whitespace by Python `str.strip()` / `str.split()`
(ASCII fragment of the Python whitespace set). -/
def isPySpace (c : Char) : Bool :=
  c = ' ' || c = '\t' || c = '\n' || c = '\r' || c = '\x0b' || c = '\x0c'

/-- Remove leading and trailing characters satisfying `p`
(the shape of Python `str.strip`). -/
def stripWhile (p : Char → Bool) (l : List Char) : List Char :=
  ((l.dropWhile p).reverse.dropWhile p).reverse

/-- Python `str.strip()` on a character list. -/
def pyStripWs (l : List Char) : List Char := stripWhile isPySpace l

/-- Python `str.strip(chars)`: strip any of the given characters from both ends. -/
def pyStripChars (cs : List Char) (l : List Char) : List Char :=
  stripWhile (fun c => cs.contains c) l

/-- Python `str.split()` with no separator: split on whitespace runs and drop
empty tokens.  `cur` holds the characters of the current token in reverse. -/
def pySplitAux : List Char → List Char → List (List Char)
  | [], cur => if cur.isEmpty then [] else [cur.reverse]
  | c :: rest, cur =>
    if isPySpace c then
      if cur.isEmpty then pySplitAux rest [] else cur.reverse :: pySplitAux rest []
    else pySplitAux rest (c :: cur)

/-- Python `str.split()`. -/
def pySplit (l : List Char) : List (List Char) := pySplitAux l []

/-! ## Python numeric literal parsing -/

/-- Numeric value of a decimal digit character. -/
def digitVal (c : Char) : Nat := c.toNat - 48

/-- Consume a maximal run of decimal digits; returns the accumulated value,
the number of digits consumed, and the remaining characters. -/
def takeDigits : Nat → Nat → List Char → Nat × Nat × List Char
  | acc, n, [] => (acc, n, [])
  | acc, n, c :: cs =>
    if c.isDigit then takeDigits (acc * 10 + digitVal c) (n + 1) cs
    else (acc, n, c :: cs)

/-- Optional exponent suffix of a Python float literal (`e`/`E`, optional sign,
at least one digit).  Applies the exponent to `v`; with no suffix present,
`v` is returned unchanged with the input untouched. -/
def parseExpPart (v : Rat) : List Char → Option (Rat × List Char)
  | [] => some (v, [])
  | c :: cs =>
    if c = 'e' || c = 'E' then
      let (neg, cs') :=
        match cs with
        | '-' :: r => (true, r)
        | '+' :: r => (false, r)
        | _ => (false, cs)
      let (e, n, rest) := takeDigits 0 0 cs'
      if n = 0 then none
      else some (applyExp v neg e, rest)
    else some (v, c :: cs)

/-- Unsigned Python float literal: `digits [. digits] [exp]` or `. digits [exp]`,
with at least one digit overall.  Returns the value and remaining characters. -/
def parseUFloat (l : List Char) : Option (Rat × List Char) :=
  let (ip, ic, r1) := takeDigits 0 0 l
  match r1 with
  | '.' :: r2 =>
    let (fp, fc, r3) := takeDigits 0 0 r2
    if ic + fc = 0 then none
    else parseExpPart (floatVal ip fp fc) r3
  | _ => if ic = 0 then none else parseExpPart (floatVal ip 0 0) r1

/-- Optional leading sign; returns whether the value is negated and the rest. -/
def parseSign : List Char → Bool × List Char
  | '-' :: r => (true, r)
  | '+' :: r => (false, r)
  | l => (false, l)

/-- Python `float(token)` on a character list: `none` models a raised
`ValueError`. -/
def pyFloatChars (l : List Char) : Option Rat :=
  match l with
  | [] => none
  | _ =>
    let (neg, l') := parseSign l
    match parseUFloat l' with
    | some (v, []) => some (if neg then -v else v)
    | _ => none

/-- Python `complex(str)` on an already-stripped character list: accepts
`a`, `aj`, `j`, `a+bj`, `a-bj`, `a+j`, `a-j` (with `J` for `j`), where `a`,
`b` are unsigned float literals and `a` may carry a leading sign.
Returns the (real, imaginary) pair, or `none` for a raised `ValueError`. -/
def pyComplexChars (l : List Char) : Option (Rat × Rat) :=
  let (neg1, l1) := parseSign l
  match l1 with
  | ['j'] => some (0, if neg1 then -1 else 1)
  | ['J'] => some (0, if neg1 then -1 else 1)
  | _ =>
    match parseUFloat l1 with
    | none => none
    | some (v, rest) =>
      let v1 := if neg1 then -v else v
      match rest with
      | [] => some (v1, 0)
      | ['j'] => some (0, v1)
      | ['J'] => some (0, v1)
      | c :: r2 =>
        if c = '+' || c = '-' then
          let neg2 := c = '-'
          match r2 with
          | ['j'] => some (v1, if neg2 then -1 else 1)
          | ['J'] => some (v1, if neg2 then -1 else 1)
          | _ =>
            match parseUFloat r2 with
            | some (v2, ['j']) => some (v1, if neg2 then -v2 else v2)
            | some (v2, ['J']) => some (v1, if neg2 then -v2 else v2)
            | _ => none
        else none

/-! ## Scalar values and the two numeric coercions -/

/-- A scalar cell value as it appears to the Python code. -/
inductive PyVal where
  | pynone
  | nan
  | int (i : Int)
  | float (q : Rat)
  | str (s : String)
  | other
deriving DecidableEq

/-- `pd.isnull` on a scalar: true exactly for `None` and `NaN`. -/
def pdIsNull : PyVal → Bool
  | .pynone => true
  | .nan => true
  | _ => false

/-- `to_complex_or_float` from `app.py`:

    if pd.isnull(x): return np.nan
    if isinstance(x, (float, int)): return complex(x)
    if isinstance(x, str):
        x = x.strip().strip(\x27()\x27)
        if not x: return np.nan
        try: return complex(x)
        except ValueError: return np.nan
    return np.nan

A complex number is modelled as a (real, imaginary) pair; the returned
`np.nan` is `none`. -/
def to_complex_or_float (x : PyVal) : Option (Rat × Rat) :=
  if pdIsNull x then none
  else
    match x with
    | .int i => some (mkRat i 1, 0)
    | .float q => some (q, 0)
    | .str s =>
      let s' := pyStripChars ['(', ')'] (pyStripWs s.toList)
      if s'.isEmpty then none
      else pyComplexChars s'
    | _ => none

/-- The per-value composite applied to the `Rectified_Impedance` column:
`to_complex_or_float` followed by
`lambda c: c.real if isinstance(c, complex) else c` (on the non-complex
branch the value is always `np.nan`, which stays missing). -/
def coerceReal (x : PyVal) : Option Rat :=
  (to_complex_or_float x).map Prod.fst

/-- `pd.to_numeric(·, errors=..coerce..)` as applied to the `Re`, `Rct` and
`Capacity` metadata columns: plain (real) numeric parsing only; strings that
are not plain float literals — including complex-number literals — coerce to
`NaN`. -/
def to_numeric_coerce (x : PyVal) : Option Rat :=
  match x with
  | .pynone => none
  | .nan => none
  | .int i => some (mkRat i 1)
  | .float q => some q
  | .str s => pyFloatChars (pyStripWs s.toList)
  | .other => none

/-- Decidable equality for `Except` results (used to evaluate the model on
concrete inputs). -/
instance {ε α : Type} [DecidableEq ε] [DecidableEq α] : DecidableEq (Except ε α) := fun a b =>
  match a, b with
  | .error e, .error f =>
    if h : e = f then isTrue (by rw [h]) else isFalse (fun hh => h (by cases hh; rfl))
  | .ok x, .ok y =>
    if h : x = y then isTrue (by rw [h]) else isFalse (fun hh => h (by cases hh; rfl))
  | .error _, .ok _ => isFalse (fun hh => Except.noConfusion hh)
  | .ok _, .error _ => isFalse (fun hh => Except.noConfusion hh)

/-! ## Timestamps and the Timestamp Normalizer (`parse_matlab_time`) -/

/-- A calendar instant at microsecond resolution (the payload of a
`pd.Timestamp` constructed from keyword fields). -/
structure Timestamp where
  year : Int
  month : Int
  day : Int
  hour : Int
  minute : Int
  second : Int
  microsecond : Int
deriving DecidableEq

/-- Gregorian leap-year rule. -/
def isLeapYear (y : Int) : Bool := y % 4 = 0 && (y % 100 ≠ 0 || y % 400 = 0)

/-- Length of month `m` in year `y`. -/
def daysInMonth (y m : Int) : Int :=
  if m = 2 then (if isLeapYear y then 29 else 28)
  else if m = 4 || m = 6 || m = 9 || m = 11 then 30 else 31

/-- Days contributed by the full months before month `m` of year `y`
(auxiliary recursion on the month count). -/
def daysBeforeMonthAux (y : Int) : Nat → Int
  | 0 => 0
  | k + 1 => daysBeforeMonthAux y k + daysInMonth y (k + 1)

/-- Days from January 1 of year `y` to the first day of its month `m`. -/
def daysBeforeMonth (y m : Int) : Int := daysBeforeMonthAux y (m - 1).toNat

/-- Number of leap years strictly before year `y` (valid for `y ≥ 1`). -/
def leapsBefore (y : Int) : Int := (y - 1) / 4 - (y - 1) / 100 + (y - 1) / 400

/-- Days between 1970-01-01 and the civil date `y-m-d` (proleptic Gregorian);
`719162` is the day count from 0001-01-01 to 1970-01-01. -/
def daysFromEpoch1970 (y m d : Int) : Int :=
  365 * (y - 1) + leapsBefore y + daysBeforeMonth y m + (d - 1) - 719162

/-- The instant as microseconds since the Unix epoch — the (scaled) `int64`
value pandas stores and sorts by. -/
def epochMicros (t : Timestamp) : Int :=
  (((daysFromEpoch1970 t.year t.month t.day * 24 + t.hour) * 60 + t.minute) * 60
      + t.second) * 1000000 + t.microsecond

/-- Field-range and representability checks performed by
`pd.Timestamp(year=…, …)`: `datetime` field validation plus the
nanosecond-resolution `int64` range of pandas. -/
def validTimestamp (t : Timestamp) : Bool :=
  1 ≤ t.year && t.year ≤ 9999 &&
  1 ≤ t.month && t.month ≤ 12 &&
  1 ≤ t.day && t.day ≤ daysInMonth t.year t.month &&
  0 ≤ t.hour && t.hour ≤ 23 &&
  0 ≤ t.minute && t.minute ≤ 59 &&
  0 ≤ t.second && t.second ≤ 59 &&
  0 ≤ t.microsecond && t.microsecond ≤ 999999 &&
  -9223372036854775807 ≤ epochMicros t * 1000 &&
  epochMicros t * 1000 ≤ 9223372036854775807

/-- `pd.Timestamp(year=…, month=…, day=…, hour=…, minute=…, second=…,
microsecond=…)`: `some` a validated timestamp, `none` for the raised
`ValueError` / `OverflowError` on an invalid combination. -/
def mkTimestamp (y mo d h mi s us : Int) : Option Timestamp :=
  let t : Timestamp := ⟨y, mo, d, h, mi, s, us⟩
  if validTimestamp t then some t else none

/-- Python `int(f)` on a float: truncation toward zero. -/
def pyTrunc (q : Rat) : Int := if q < 0 then ⌈q⌉ else ⌊q⌋

/-- Python `round(f)` (no digits argument): round half to even. -/
def pyRound (q : Rat) : Int :=
  let f := ⌊q⌋
  let r := ratSub q (mkRat f 1)
  if r < mkRat 1 2 then f
  else if mkRat 1 2 < r then f + 1
  else if f % 2 = 0 then f else f + 1

/-- The token list `str_time.strip().strip(..[]..).split()` that
`parse_matlab_time` works on. -/
def matlabTokens (str_time : String) : List (List Char) :=
  pySplit (pyStripChars ['[', ']'] (pyStripWs str_time.toList))

/-- `parse_matlab_time` from `app.py`:

    str_time = str_time.strip().strip(..[]..)
    parts = str_time.split()
    if len(parts) != 6: return pd.NaT
    arr = [float(x) for x in parts]
    year, month, day, hour, minute, sec = arr
    sec_int = int(sec)
    microseconds = int(round((sec - sec_int) * 1_000_000))
    return pd.Timestamp(year=int(year), month=int(month), day=int(day),
                        hour=int(hour), minute=int(minute), second=sec_int,
                        microsecond=microseconds)

`Except.ok none` is the returned `pd.NaT`; `Except.error ()` is an uncaught
exception escaping the function (there is no try/except in the source). -/
def parse_matlab_time (str_time : String) : Except Unit (Option Timestamp) :=
  let toks := matlabTokens str_time
  if toks.length ≠ 6 then Except.ok none
  else
    match toks.mapM pyFloatChars with
    | none => Except.error ()
    | some vs =>
      match vs with
      | [year, month, day, hour, minute, sec] =>
        let sec_int := pyTrunc sec
        let microseconds := pyRound (ratMulInt (ratSub sec (mkRat sec_int 1)) 1000000)
        match mkTimestamp (pyTrunc year) (pyTrunc month) (pyTrunc day)
            (pyTrunc hour) (pyTrunc minute) sec_int microseconds with
        | some t => Except.ok (some t)
        | none => Except.error ()
      | _ => Except.error ()  -- unreachable: `mapM` preserves the length 6

/-! ## Stable sorting (model of `DataFrame.sort_values`)

`sort_values('start_time')` sorts ascending with missing values placed last
(`na_position='last'`); ties are broken deterministically.  The model uses
the stable `List.insertionSort`. -/

/-! ## Records and the Record Classifier & Indexer -/

/-- One row of the metadata table after normalization (lines 24–29 of
`app.py`): the parsed timestamp and plainly-coerced numeric fields. -/
structure Record where
  battery_id : String
  type : String
  start_time : Option Timestamp
  Re : Option Rat
  Rct : Option Rat
  Capacity : Option Rat
  filename : String
deriving DecidableEq

/-- Comparison used by `sort_values('start_time')`: ascending by the stored
epoch value, with `NaT` sorting after everything. -/
def timeLE : Option Timestamp → Option Timestamp → Bool
  | _, none => true
  | none, some _ => false
  | some a, some b => decide (epochMicros a ≤ epochMicros b)

/-- Strict chronological precedence (`NaT` counts as after every instant). -/
def timeLT (a b : Option Timestamp) : Bool := timeLE a b && !timeLE b a

/-- Row comparison for `metadata.sort_values('start_time')`. -/
def recLE (a b : Record) : Bool := timeLE a.start_time b.start_time

/-- `recLE` as a decidable relation, for `List.insertionSort`. -/
def recLEP (a b : Record) : Prop := recLE a b = true

instance : DecidableRel recLEP :=
  fun a b => inferInstanceAs (Decidable (recLE a b = true))

/-- `sort_values('start_time')` on a record list. -/
def sortByStart (l : List Record) : List Record := l.insertionSort recLEP

/-- `df.reset_index(drop=True); df.index + 1` starting at `k`: pair each
record with its 1-based rank. -/
def assignCyclesFrom (k : Nat) : List Record → List (Record × Nat)
  | [] => []
  | r :: rs => (r, k) :: assignCyclesFrom (k + 1) rs

/-- Lines 33–37 of `app.py`: the discharge partition, re-sorted by
`start_time` and given `cycle_number = index + 1`. -/
def discharge_data (metadata : List Record) : List (Record × Nat) :=
  assignCyclesFrom 1 (sortByStart (metadata.filter (fun r => r.type == "discharge")))

/-- Lines 32, 39–41 of `app.py`: the impedance partition, re-sorted by
`start_time` and given `impedance_cycle_number = index + 1`. -/
def impedance_data (metadata : List Record) : List (Record × Nat) :=
  assignCyclesFrom 1 (sortByStart (metadata.filter (fun r => r.type == "impedance")))

/-! ## The Impedance File Reader (`get_rectified_impedance`) -/

/-- What the file system yields for a path: nothing (`os.path.exists` false),
an unreadable/unparsable file (`pd.read_csv` raises, caught by the
`except Exception` handler), or a parsed table given as named columns. -/
inductive FileContent where
  | unreadable
  | table (cols : List (String × List PyVal))
deriving DecidableEq

/-- A file system: a map from paths to contents. -/
def FS : Type := String → Option FileContent

/-- `name in df.columns` / `df[name]`: the first column with the given name. -/
def lookupCol (cols : List (String × List PyVal)) (name : String) : Option (List PyVal) :=
  (cols.find? (fun c => c.1 == name)).map Prod.snd

/-- `Series.median()` with default `skipna` semantics, applied to the
non-missing values: sort, take the middle element (odd length) or the mean
of the two middle elements (even length); empty input gives `NaN`. -/
def pandasMedian (l : List Rat) : Option Rat :=
  let s := l.insertionSort (· ≤ ·)
  if s.length = 0 then none
  else if s.length % 2 = 1 then some (s.getD (s.length / 2) 0)
  else some (ratHalfSum (s.getD (s.length / 2 - 1) 0) (s.getD (s.length / 2) 0))

/-- `get_rectified_impedance` from `app.py`:

    if not os.path.exists(file_path): return np.nan
    try:
        df = pd.read_csv(file_path)
        if ..Rectified_Impedance.. in df.columns:
            df[..] = df[..].apply(to_complex_or_float)
            real_values = df[..].apply(lambda c: c.real if isinstance(c, complex) else c)
            return real_values.median()
        else: return np.nan
    except Exception as e: ... return np.nan

Every branch returns a value or `NaN`; no exception escapes (the whole read
is wrapped in `except Exception`). -/
def get_rectified_impedance (fs : FS) (file_path : String) : Option Rat :=
  match fs file_path with
  | none => none
  | some .unreadable => none
  | some (.table cols) =>
    match lookupCol cols "Rectified_Impedance" with
    | some col => pandasMedian (col.filterMap coerceReal)
    | none => none

/-! ## Rectified-impedance derivation and the Cleaning Filter -/

/-- `data_base_path` of `app.py`; `os.path.join` with a trailing-slash base
is string concatenation for relative filenames. -/
def data_base_path : String := "cleaned_dataset/data/"

/-- Lines 78–86 of `app.py`: walk the indexed impedance rows and attach
`get_rectified_impedance` of each row's file as the `Rectified_Impedance`
column. -/
def impedance_with_rect (fs : FS) (metadata : List Record) :
    List (Record × Nat × Option Rat) :=
  (impedance_data metadata).map
    (fun rc => (rc.1, rc.2, get_rectified_impedance fs (data_base_path ++ rc.1.filename)))

/-- `dropna(subset=['Re', 'Rct', 'Rectified_Impedance'])` row predicate. -/
def dropnaPred (e : Record × Nat × Option Rat) : Bool :=
  e.1.Re.isSome && e.1.Rct.isSome && e.2.2.isSome

/-- pandas `series > c` on a scalar: `NaN` compares false. -/
def cmpGT (o : Option Rat) (c : Rat) : Bool :=
  match o with
  | some v => decide (c < v)
  | none => false

/-- pandas `series < c` on a scalar: `NaN` compares false. -/
def cmpLT (o : Option Rat) (c : Rat) : Bool :=
  match o with
  | some v => decide (v < c)
  | none => false

/-- The Boolean mask of lines 90–95: all three metrics strictly between 0
and 10. -/
def rangePred (e : Record × Nat × Option Rat) : Bool :=
  cmpGT e.1.Re 0 && cmpLT e.1.Re 10 && cmpGT e.1.Rct 0 && cmpLT e.1.Rct 10 &&
  cmpGT e.2.2 0 && cmpLT e.2.2 10

/-- Lines 88–96 of `app.py`: `dropna` on the three metrics, then the
strict-range mask.  Cycle numbers are carried through untouched. -/
def cleaning_filter (l : List (Record × Nat × Option Rat)) :
    List (Record × Nat × Option Rat) :=
  (l.filter dropnaPred).filter rangePred

/-- `impedance_data_clean` from `app.py`: the cleaned impedance dataset. -/
def impedance_data_clean (fs : FS) (metadata : List Record) :
    List (Record × Nat × Option Rat) :=
  cleaning_filter (impedance_with_rect fs metadata)

/-! ## Raw rows and metadata normalization (lines 8, 24–29) -/

/-- One raw row of `metadata.csv` as loaded by `pd.read_csv`. -/
structure RawRow where
  battery_id : String
  type : String
  start_time : String
  Re : PyVal
  Rct : PyVal
  Capacity : PyVal
  filename : String

/-- Lines 24–29 of `app.py` applied to one row: parse the timestamp (an
exception propagates out of `Series.apply`) and coerce `Re`, `Rct`,
`Capacity` with `pd.to_numeric(errors='coerce')`. -/
def normalizeRow (r : RawRow) : Except Unit Record :=
  match parse_matlab_time r.start_time with
  | Except.error e => Except.error e
  | Except.ok ts =>
    Except.ok
      ⟨r.battery_id, r.type, ts, to_numeric_coerce r.Re, to_numeric_coerce r.Rct,
        to_numeric_coerce r.Capacity, r.filename⟩

/-- Lines 24–25 of `app.py` over the whole table: normalize every row, then
`metadata.sort_values('start_time')`. -/
def load_metadata (rows : List RawRow) : Except Unit (List Record) :=
  (rows.mapM normalizeRow).map sortByStart

/-! ## Order lemmas for the sort comparison -/

theorem timeLE_total (a b : Option Timestamp) : timeLE a b = true ∨ timeLE b a = true := by
  cases a <;> cases b <;> simp [timeLE]
  exact Int.le_total _ _

theorem timeLE_trans (a b c : Option Timestamp)
    (h1 : timeLE a b = true) (h2 : timeLE b c = true) : timeLE a c = true := by
  cases a <;> cases b <;> cases c <;> simp_all [timeLE]
  omega

instance : IsTotal Record recLEP :=
  ⟨fun a b => timeLE_total a.start_time b.start_time⟩

instance : IsTrans Record recLEP :=
  ⟨fun a b c h1 h2 => timeLE_trans a.start_time b.start_time c.start_time h1 h2⟩

/-! ## `filter` commutes with stable insertion sort -/

theorem filter_orderedInsert_pos {α : Type} (r : α → α → Prop) [DecidableRel r] [IsTrans α r]
    (p : α → Bool) (x : α) (hx : p x = true) :
    ∀ l : List α, l.Sorted r →
      (l.orderedInsert r x).filter p = (l.filter p).orderedInsert r x := by
  intro l
  induction l with
  | nil => intro _; simp [List.orderedInsert, hx]
  | cons y ys ih =>
    intro hs
    obtain ⟨hy, hys⟩ := List.sorted_cons.mp hs
    by_cases hr : r x y
    · rw [List.orderedInsert, if_pos hr, List.filter_cons_of_pos hx]
      have hall : ∀ z ∈ (y :: ys).filter p, r x z := by
        intro z hz
        rcases List.mem_cons.mp (List.mem_filter.mp hz).1 with h | h
        · exact h ▸ hr
        · exact Trans.trans hr (hy z h)
      cases hfil : (y :: ys).filter p with
      | nil => simp [List.orderedInsert]
      | cons z zs =>
        rw [List.orderedInsert,
          if_pos (hall z (by rw [hfil]; exact List.mem_cons_self z zs))]
    · rw [List.orderedInsert, if_neg hr]
      by_cases hpy : p y = true
      · rw [List.filter_cons_of_pos hpy, List.filter_cons_of_pos hpy, ih hys,
          List.orderedInsert, if_neg hr]
      · rw [List.filter_cons_of_neg hpy, List.filter_cons_of_neg hpy, ih hys]

theorem filter_orderedInsert_neg {α : Type} (r : α → α → Prop) [DecidableRel r]
    (p : α → Bool) (x : α) (hx : p x = false) :
    ∀ l : List α, (l.orderedInsert r x).filter p = l.filter p := by
  intro l
  induction l with
  | nil => simp [List.orderedInsert, hx]
  | cons y ys ih =>
    by_cases hr : r x y
    · rw [List.orderedInsert, if_pos hr, List.filter_cons_of_neg (by simp [hx])]
    · rw [List.orderedInsert, if_neg hr]
      by_cases hpy : p y = true
      · rw [List.filter_cons_of_pos hpy, List.filter_cons_of_pos hpy, ih]
      · rw [List.filter_cons_of_neg hpy, List.filter_cons_of_neg hpy, ih]

theorem filter_insertionSort {α : Type} (r : α → α → Prop) [DecidableRel r]
    [IsTotal α r] [IsTrans α r] (p : α → Bool) :
    ∀ l : List α, (l.insertionSort r).filter p = (l.filter p).insertionSort r := by
  intro l
  induction l with
  | nil => rfl
  | cons x xs ih =>
    rw [List.insertionSort]
    by_cases hx : p x = true
    · rw [filter_orderedInsert_pos r p x hx _ (List.sorted_insertionSort r xs), ih,
        List.filter_cons_of_pos hx, List.insertionSort]
    · have hx' : p x = false := by revert hx; cases p x <;> simp
      rw [filter_orderedInsert_neg r p x hx', ih, List.filter_cons_of_neg hx]

/-- Sorting, filtering by a row predicate, and re-sorting is the same as
filtering and sorting once: the pre-sort of the whole metadata table does
not affect a partition's final order. -/
theorem sortByStart_filter_sortByStart (p : Record → Bool) (l : List Record) :
    sortByStart ((sortByStart l).filter p) = sortByStart (l.filter p) := by
  rw [sortByStart, sortByStart, sortByStart, filter_insertionSort recLEP p l,
    List.Sorted.insertionSort_eq (List.sorted_insertionSort recLEP (l.filter p))]

/-! ## Rank assignment -/

theorem assignCyclesFrom_map_fst :
    ∀ (s : List Record) (k : Nat), (assignCyclesFrom k s).map Prod.fst = s := by
  intro s
  induction s with
  | nil => intro k; rfl
  | cons r rs ih => intro k; simp [assignCyclesFrom, ih]

theorem assignCyclesFrom_map_snd :
    ∀ (s : List Record) (k : Nat),
      (assignCyclesFrom k s).map Prod.snd = List.range' k s.length := by
  intro s
  induction s with
  | nil => intro k; rfl
  | cons r rs ih => intro k; simp [assignCyclesFrom, ih, List.range'_succ]

theorem assignCyclesFrom_length (s : List Record) (k : Nat) :
    (assignCyclesFrom k s).length = s.length := by
  rw [← List.length_map (assignCyclesFrom k s) Prod.fst, assignCyclesFrom_map_fst]

theorem mem_assignCyclesFrom :
    ∀ (s : List Record) (k : Nat) (x : Record × Nat),
      x ∈ assignCyclesFrom k s ↔
        ∃ (i : Nat) (h : i < s.length), s[i] = x.1 ∧ x.2 = k + i := by
  intro s
  induction s with
  | nil => intro k x; simp [assignCyclesFrom]
  | cons r rs ih =>
    intro k x
    rw [assignCyclesFrom, List.mem_cons, ih (k + 1) x]
    constructor
    · rintro (rfl | ⟨i, h, h1, h2⟩)
      · exact ⟨0, by simp, by simp, by simp⟩
      · exact ⟨i + 1, by simpa using Nat.succ_lt_succ h, by simpa using h1, by omega⟩
    · rintro ⟨i, h, h1, h2⟩
      cases i with
      | zero =>
        left
        simp only [List.getElem_cons_zero] at h1
        obtain ⟨x1, x2⟩ := x
        simp_all
      | succ j =>
        right
        exact ⟨j, by simpa using Nat.lt_of_succ_lt_succ h, by simpa using h1, by omega⟩

/-- In an indexed, time-sorted partition, strict chronological precedence
forces a strictly smaller assigned rank. -/
theorem indexed_strict_mono (part : List Record) (x y : Record × Nat)
    (hx : x ∈ assignCyclesFrom 1 (sortByStart part))
    (hy : y ∈ assignCyclesFrom 1 (sortByStart part))
    (hlt : timeLT x.1.start_time y.1.start_time = true) : x.2 < y.2 := by
  obtain ⟨i, hi, hxi, hx2⟩ := (mem_assignCyclesFrom _ 1 x).mp hx
  obtain ⟨j, hj, hyj, hy2⟩ := (mem_assignCyclesFrom _ 1 y).mp hy
  have hs : (sortByStart part).Sorted recLEP := List.sorted_insertionSort recLEP part
  rw [timeLT, Bool.and_eq_true, Bool.not_eq_true'] at hlt
  have hij : i < j := by
    rcases Nat.lt_trichotomy i j with h | h | h
    · exact h
    · exfalso
      subst h
      have hxy : x.1 = y.1 := by rw [← hxi, hyj]
      rw [hxy] at hlt
      rcases timeLE_total y.1.start_time y.1.start_time with ht | ht <;>
        rw [ht] at hlt <;> exact Bool.true_eq_false.mp hlt.2
    · exfalso
      have := List.pairwise_iff_getElem.mp hs j i hj hi h
      rw [recLEP, recLE, hxi, hyj] at this
      rw [this] at hlt
      exact Bool.true_eq_false.mp hlt.2
  omega

/-! ## Claim theorems -/

/-- C9: for every input string whose token count after bracket-stripping and
whitespace-splitting is not 6, `parse_matlab_time` returns the missing
sentinel `pd.NaT` (`Except.ok none`) — in particular it raises nothing. -/
theorem normalizer_wrong_arity_yields_missing (s : String)
    (h : (matlabTokens s).length ≠ 6) :
    parse_matlab_time s = Except.ok none := by
  rw [parse_matlab_time]
  simp [h]

/-- C9 witness: `"[2015 3 18]"` splits into 3 tokens and yields `pd.NaT`. -/
theorem normalizer_wrong_arity_yields_missing_witness :
    parse_matlab_time "[2015 3 18]" = Except.ok none :=
  normalizer_wrong_arity_yields_missing "[2015 3 18]" (by decide)

/-- C1 counterexample: `"[2015 13 1 0 0 0]"` has exactly six tokens and a
calendar-invalid month, and `parse_matlab_time` raises (the `pd.Timestamp`
`ValueError` propagates) instead of yielding the missing sentinel. -/
theorem normalizer_raises_on_invalid_month :
    (matlabTokens "[2015 13 1 0 0 0]").length = 6 ∧
    parse_matlab_time "[2015 13 1 0 0 0]" = Except.error () := by
  constructor
  · decide
  · decide

/-- C1 (amended): the missing sentinel is returned exactly for token counts
other than 6; on a six-token input any field-level parse failure or
calendar-invalid combination instead raises an exception out of the
normalizer (the outcome is then either a raised exception or a successful
timestamp, never missing). -/
theorem normalizer_missing_iff_wrong_arity (s : String) :
    (parse_matlab_time s = Except.ok none ↔ (matlabTokens s).length ≠ 6) ∧
    ((matlabTokens s).length = 6 →
      parse_matlab_time s = Except.error () ∨
        ∃ t, parse_matlab_time s = Except.ok (some t)) := by
  rw [parse_matlab_time]
  by_cases h : (matlabTokens s).length ≠ 6
  · simp [h]
  · rw [if_neg (by simpa using h)]
    have h6 : (matlabTokens s).length = 6 := by simpa using h
    cases hm : (matlabTokens s).mapM pyFloatChars with
    | none => simp [h6]
    | some vs =>
      rcases vs with _ | ⟨v1, _ | ⟨v2, _ | ⟨v3, _ | ⟨v4, _ | ⟨v5, _ | ⟨v6, _ | ⟨v7, vr⟩⟩⟩⟩⟩⟩⟩ <;>
        simp [h6]
      cases hmk : mkTimestamp (pyTrunc v1) (pyTrunc v2) (pyTrunc v3) (pyTrunc v4) (pyTrunc v5)
          (pyTrunc v6)
          (pyRound (ratMulInt (ratSub v6 ((pyTrunc v6 : Int) : Rat)) 1000000)) with
      | none => simp [hmk]
      | some t => simp [hmk]

/-- C1 (amended) witness: a wrong-arity input yields missing, and a six-token
input resolves to a raised exception or a timestamp. -/
theorem normalizer_missing_iff_wrong_arity_witness :
    parse_matlab_time "[2015 3]" = Except.ok none ∧
    (parse_matlab_time "[1 2 3 4 5 6]" = Except.error () ∨
      ∃ t, parse_matlab_time "[1 2 3 4 5 6]" = Except.ok (some t)) :=
  ⟨(normalizer_missing_iff_wrong_arity "[2015 3]").1.mpr (by decide),
    (normalizer_missing_iff_wrong_arity "[1 2 3 4 5 6]").2 (by decide)⟩

/-- C7 counterexample: `"[2015 2 30 9 31 40.25]"` is six numeric tokens
(every token float-parses), yet the normalizer produces no timestamp — the
calendar-invalid February 30 makes `pd.Timestamp` raise. -/
theorem normalizer_no_timestamp_on_feb30 :
    (matlabTokens "[2015 2 30 9 31 40.25]").length = 6 ∧
    ((matlabTokens "[2015 2 30 9 31 40.25]").mapM pyFloatChars).isSome = true ∧
    parse_matlab_time "[2015 2 30 9 31 40.25]" = Except.error () := by
  refine ⟨by decide, by decide, by decide⟩

/-- C7 (amended): on a six-token numeric input whose truncated fields form a
calendar-valid, pandas-representable instant, `parse_matlab_time` returns
the timestamp whose year, month, day, hour and minute are the truncated
fields, whose seconds are the truncated sixth field, and whose microseconds
are `(sec − whole_seconds) × 1 000 000` rounded to the nearest integer
(ties to even); six-token numeric inputs with invalid truncated fields
raise instead. -/
theorem normalizer_wellformed_fields (s : String) (t1 t2 t3 t4 t5 t6 : List Char)
    (y mo d h mi sec : Rat)
    (htoks : matlabTokens s = [t1, t2, t3, t4, t5, t6])
    (h1 : pyFloatChars t1 = some y) (h2 : pyFloatChars t2 = some mo)
    (h3 : pyFloatChars t3 = some d) (h4 : pyFloatChars t4 = some h)
    (h5 : pyFloatChars t5 = some mi) (h6 : pyFloatChars t6 = some sec)
    (hvalid : validTimestamp ⟨pyTrunc y, pyTrunc mo, pyTrunc d, pyTrunc h, pyTrunc mi,
        pyTrunc sec, pyRound ((sec - ((pyTrunc sec : Int) : Rat)) * 1000000)⟩ = true) :
    parse_matlab_time s =
      Except.ok (some ⟨pyTrunc y, pyTrunc mo, pyTrunc d, pyTrunc h, pyTrunc mi,
        pyTrunc sec, pyRound ((sec - ((pyTrunc sec : Int) : Rat)) * 1000000)⟩) := by
  have hmk : ratMulInt (ratSub sec (mkRat (pyTrunc sec) 1)) 1000000
      = (sec - ((pyTrunc sec : Int) : Rat)) * 1000000 := by
    rw [ratMulInt_eq, ratSub_eq, mkRat_intCast_eq]
    norm_num
  rw [parse_matlab_time]
  rw [htoks]
  simp only [List.length_cons, List.length_nil]
  rw [if_neg (by omega)]
  rw [show List.mapM pyFloatChars [t1, t2, t3, t4, t5, t6]
      = some [y, mo, d, h, mi, sec] by
    simp [List.mapM, List.mapM.loop, h1, h2, h3, h4, h5, h6]]
  simp only [hmk, mkTimestamp]
  rw [if_pos hvalid]

/-- C7 witness: `"[2015 3 18 9 31 40.25]"` yields 2015-03-18 09:31:40.250000. -/
theorem normalizer_wellformed_fields_witness :
    parse_matlab_time "[2015 3 18 9 31 40.25]"
      = Except.ok (some ⟨2015, 3, 18, 9, 31, 40, 250000⟩) := by
  have hmu : ((mkRat 4025 100 : Rat) - ((pyTrunc (mkRat 4025 100) : Int) : Rat)) * 1000000
      = mkRat 250000 1 := by
    rw [show pyTrunc (mkRat 4025 100) = (40 : Int) from by decide]
    rw [Rat.mkRat_eq_div, Rat.mkRat_eq_div]
    norm_num
  have hmain := normalizer_wellformed_fields "[2015 3 18 9 31 40.25]"
    "2015".toList "3".toList "18".toList "9".toList "31".toList "40.25".toList
    (mkRat 2015 1) (mkRat 3 1) (mkRat 18 1) (mkRat 9 1) (mkRat 31 1) (mkRat 4025 100)
    (by decide) (by decide) (by decide) (by decide) (by decide) (by decide) (by decide)
    (by rw [hmu]; decide)
  rw [hmain, hmu]
  decide

/-- `1/2` in normalized constructor form. -/
theorem half_eq_mkRat : (1/2 : Rat) = mkRat 1 2 := by
  rw [Rat.mkRat_eq_div]
  norm_num

/-- `3.2` in normalized constructor form. -/
theorem sixteenFifths_eq_mkRat : (16/5 : Rat) = mkRat 16 5 := by
  rw [Rat.mkRat_eq_div]
  norm_num

/-- C8: the Numeric Coercer applied to measurement-file values carries the
real component and discards the imaginary part: whenever the stripped string
parses as a complex literal `re + im·j`, the carried value is `re`; the
string `"(0.5+0.2j)"` maps to `0.5`, the empty string, `None`/`NaN` and
foreign types map to missing, the plain number `3.2` maps to `3.2`, and any
string that fails complex parsing maps to missing. -/
theorem numeric_coercer_spec :
    (∀ (s : String) (re im : Rat),
        pyComplexChars (pyStripChars ['(', ')'] (pyStripWs s.toList)) = some (re, im) →
        coerceReal (PyVal.str s) = some re) ∧
    coerceReal (PyVal.str "(0.5+0.2j)") = some (1/2) ∧
    coerceReal (PyVal.str "") = none ∧
    coerceReal PyVal.pynone = none ∧
    coerceReal PyVal.nan = none ∧
    coerceReal (PyVal.float (16/5)) = some (16/5) ∧
    coerceReal PyVal.other = none ∧
    (∀ (s : String),
        pyComplexChars (pyStripChars ['(', ')'] (pyStripWs s.toList)) = none →
        coerceReal (PyVal.str s) = none) := by
  refine ⟨?_, by rw [half_eq_mkRat]; decide, by decide, by decide, by decide,
    by rw [sixteenFifths_eq_mkRat]; decide, by decide, ?_⟩
  · intro s re im hp
    simp only [coerceReal, to_complex_or_float, pdIsNull]
    cases hs : pyStripChars ['(', ')'] (pyStripWs s.toList) with
    | nil =>
      rw [hs, show pyComplexChars ([] : List Char) = none from by decide] at hp
      exact Option.noConfusion hp
    | cons c cs => rw [hs] at hp; simp [hp]
  · intro s hp
    simp only [coerceReal, to_complex_or_float, pdIsNull]
    cases hs : pyStripChars ['(', ')'] (pyStripWs s.toList) with
    | nil => simp
    | cons c cs => rw [hs] at hp; simp [hp]

/-- C8 witness: the general real-part clause applied to the concrete literal
`"1-2j"`. -/
theorem numeric_coercer_spec_witness :
    coerceReal (PyVal.str "1-2j") = some (mkRat 1 1) :=
  numeric_coercer_spec.1 "1-2j" (mkRat 1 1) (mkRat (-2) 1) (by decide)

/-- C10: the metadata fields `Re`, `Rct`, `Capacity` go through plain
`pd.to_numeric` coercion, which turns a complex-literal string into missing —
while the measurement-file coercer turns the same string into its real part
`0.5`; `normalizeRow` wires exactly `to_numeric_coerce` to the three
metadata fields. -/
theorem metadata_fields_plain_numeric :
    to_numeric_coerce (PyVal.str "(0.5+0.2j)") = none ∧
    coerceReal (PyVal.str "(0.5+0.2j)") = some (1/2) ∧
    (∀ (r : RawRow) (rec : Record), normalizeRow r = Except.ok rec →
      rec.Re = to_numeric_coerce r.Re ∧ rec.Rct = to_numeric_coerce r.Rct ∧
        rec.Capacity = to_numeric_coerce r.Capacity) := by
  refine ⟨by decide, by rw [half_eq_mkRat]; decide, ?_⟩
  intro r rec hr
  rw [normalizeRow] at hr
  cases hp : parse_matlab_time r.start_time with
  | error e => rw [hp] at hr; exact Except.noConfusion hr
  | ok ts =>
    rw [hp] at hr
    injection hr with h
    subst h
    exact ⟨rfl, rfl, rfl⟩

/-- C10 witness: a concrete row whose `Re` cell is the complex string — the
normalized record carries `none` there. -/
theorem metadata_fields_plain_numeric_witness :
    (Record.mk "B0005" "impedance" (some ⟨2015, 3, 18, 9, 31, 40, 0⟩) none
        (some (mkRat 1 10)) none "f.csv").Re
      = to_numeric_coerce (PyVal.str "(0.5+0.2j)") ∧
    (Record.mk "B0005" "impedance" (some ⟨2015, 3, 18, 9, 31, 40, 0⟩) none
        (some (mkRat 1 10)) none "f.csv").Rct
      = to_numeric_coerce (PyVal.float (mkRat 1 10)) ∧
    (Record.mk "B0005" "impedance" (some ⟨2015, 3, 18, 9, 31, 40, 0⟩) none
        (some (mkRat 1 10)) none "f.csv").Capacity
      = to_numeric_coerce PyVal.pynone :=
  metadata_fields_plain_numeric.2.2
    ⟨"B0005", "impedance", "[2015 3 18 9 31 40]", PyVal.str "(0.5+0.2j)",
      PyVal.float (mkRat 1 10), PyVal.pynone, "f.csv"⟩
    (Record.mk "B0005" "impedance" (some ⟨2015, 3, 18, 9, 31, 40, 0⟩) none
      (some (mkRat 1 10)) none "f.csv")
    (by decide)

/-- C5: the Impedance File Reader returns a value or missing and never lets
an exception escape; a non-existent path, an unreadable file (every caught
I/O or parse exception), a table lacking the `Rectified_Impedance` column,
and an entirely-missing column all map to missing. -/
theorem reader_never_raises (fs : FS) (p : String)
    (h : fs p = none ∨ fs p = some FileContent.unreadable ∨
      (∃ cols, fs p = some (FileContent.table cols) ∧
        lookupCol cols "Rectified_Impedance" = none) ∨
      (∃ cols col, fs p = some (FileContent.table cols) ∧
        lookupCol cols "Rectified_Impedance" = some col ∧
        col.filterMap coerceReal = [])) :
    get_rectified_impedance fs p = none := by
  rw [get_rectified_impedance]
  rcases h with h | h | ⟨cols, h, hc⟩ | ⟨cols, col, h, hc, he⟩
  · rw [h]
  · rw [h]
  · rw [h]
    simp [hc]
  · rw [h]
    simp [hc, he, pandasMedian]

/-- C5 witness: a path absent from the file system yields missing. -/
theorem reader_never_raises_witness :
    get_rectified_impedance (fun _ => none) "cleaned_dataset/data/missing.csv" = none :=
  reader_never_raises (fun _ => none) "cleaned_dataset/data/missing.csv" (Or.inl rfl)

/-- C6: on a readable table carrying a `Rectified_Impedance` column, the
reader applies the Numeric Coercer to every cell and returns the pandas
median of the resulting real parts, ignoring missing entries. -/
theorem reader_median_of_reals (fs : FS) (p : String)
    (cols : List (String × List PyVal)) (col : List PyVal)
    (hfs : fs p = some (FileContent.table cols))
    (hcol : lookupCol cols "Rectified_Impedance" = some col) :
    get_rectified_impedance fs p = pandasMedian (col.filterMap coerceReal) := by
  rw [get_rectified_impedance, hfs]
  simp [hcol]

/-- C6 witness: the column `[1.0, 3.0, 5.0]` gives median `3.0`. -/
theorem reader_median_of_reals_witness :
    get_rectified_impedance
      (fun q => if q = "cleaned_dataset/data/f.csv"
        then some (FileContent.table [("Rectified_Impedance",
          [PyVal.float (mkRat 1 1), PyVal.float (mkRat 3 1), PyVal.float (mkRat 5 1)])])
        else none)
      "cleaned_dataset/data/f.csv" = some (mkRat 3 1) := by
  rw [reader_median_of_reals
    (fun q => if q = "cleaned_dataset/data/f.csv"
      then some (FileContent.table [("Rectified_Impedance",
        [PyVal.float (mkRat 1 1), PyVal.float (mkRat 3 1), PyVal.float (mkRat 5 1)])])
      else none)
    "cleaned_dataset/data/f.csv"
    [("Rectified_Impedance",
      [PyVal.float (mkRat 1 1), PyVal.float (mkRat 3 1), PyVal.float (mkRat 5 1)])]
    [PyVal.float (mkRat 1 1), PyVal.float (mkRat 3 1), PyVal.float (mkRat 5 1)]
    (by decide) (by decide)]
  decide

/-- C4: the Cleaning Filter keeps a derived impedance row iff its `Re`,
`Rct` and rectified-impedance values are all present and each lies strictly
inside (0, 10); the survivors are exactly the qualifying input entries,
unaltered and in input order (the output is a sublist of the input). -/
theorem cleaning_filter_keeps_iff (l : List (Record × Nat × Option Rat)) :
    List.Sublist (cleaning_filter l) l ∧
    (∀ e, e ∈ cleaning_filter l ↔ e ∈ l ∧
      ∃ re rct rv, e.1.Re = some re ∧ e.1.Rct = some rct ∧ e.2.2 = some rv ∧
        0 < re ∧ re < 10 ∧ 0 < rct ∧ rct < 10 ∧ 0 < rv ∧ rv < 10) := by
  constructor
  · exact (List.filter_sublist _).trans (List.filter_sublist _)
  · intro e
    rw [cleaning_filter, List.mem_filter, List.mem_filter]
    constructor
    · rintro ⟨⟨hm, hd⟩, hr⟩
      refine ⟨hm, ?_⟩
      cases hRe : e.1.Re with
      | none => rw [dropnaPred, hRe] at hd; simp at hd
      | some re =>
        cases hRct : e.1.Rct with
        | none => rw [dropnaPred, hRct] at hd; simp at hd
        | some rct =>
          cases hRv : e.2.2 with
          | none => rw [dropnaPred, hRv] at hd; simp at hd
          | some rv =>
            rw [rangePred, hRe, hRct, hRv] at hr
            simp only [cmpGT, cmpLT, Bool.and_eq_true, decide_eq_true_eq] at hr
            exact ⟨re, rct, rv, rfl, rfl, rfl, hr.1.1.1.1.1, hr.1.1.1.1.2,
              hr.1.1.1.2, hr.1.1.2, hr.1.2, hr.2⟩
    · rintro ⟨hm, re, rct, rv, hre, hrct, hrv, h1, h2, h3, h4, h5, h6⟩
      refine ⟨⟨hm, ?_⟩, ?_⟩
      · rw [dropnaPred, hre, hrct, hrv]
        rfl
      · rw [rangePred, hre, hrct, hrv]
        simp only [cmpGT, cmpLT, Bool.and_eq_true, decide_eq_true_eq]
        exact ⟨⟨⟨⟨⟨h1, h2⟩, h3⟩, h4⟩, h5⟩, h6⟩

/-- C4 witness: `Re = 0` and `Rct = 10` rows are excluded (boundaries are
strict), the `(5, 5, 5)` row is included, at its original field values. -/
theorem cleaning_filter_keeps_iff_witness :
    (Record.mk "B" "impedance" none (some (mkRat 5 1)) (some (mkRat 5 1)) none "c.csv",
        3, some (mkRat 5 1)) ∈
      cleaning_filter
        [(Record.mk "B" "impedance" none (some (mkRat 0 1)) (some (mkRat 5 1)) none "a.csv",
            1, some (mkRat 5 1)),
          (Record.mk "B" "impedance" none (some (mkRat 5 1)) (some (mkRat 10 1)) none "b.csv",
            2, some (mkRat 5 1)),
          (Record.mk "B" "impedance" none (some (mkRat 5 1)) (some (mkRat 5 1)) none "c.csv",
            3, some (mkRat 5 1))] ∧
    (Record.mk "B" "impedance" none (some (mkRat 0 1)) (some (mkRat 5 1)) none "a.csv",
        1, some (mkRat 5 1)) ∉
      cleaning_filter
        [(Record.mk "B" "impedance" none (some (mkRat 0 1)) (some (mkRat 5 1)) none "a.csv",
            1, some (mkRat 5 1)),
          (Record.mk "B" "impedance" none (some (mkRat 5 1)) (some (mkRat 10 1)) none "b.csv",
            2, some (mkRat 5 1)),
          (Record.mk "B" "impedance" none (some (mkRat 5 1)) (some (mkRat 5 1)) none "c.csv",
            3, some (mkRat 5 1))] ∧
    (Record.mk "B" "impedance" none (some (mkRat 5 1)) (some (mkRat 10 1)) none "b.csv",
        2, some (mkRat 5 1)) ∉
      cleaning_filter
        [(Record.mk "B" "impedance" none (some (mkRat 0 1)) (some (mkRat 5 1)) none "a.csv",
            1, some (mkRat 5 1)),
          (Record.mk "B" "impedance" none (some (mkRat 5 1)) (some (mkRat 10 1)) none "b.csv",
            2, some (mkRat 5 1)),
          (Record.mk "B" "impedance" none (some (mkRat 5 1)) (some (mkRat 5 1)) none "c.csv",
            3, some (mkRat 5 1))] := by
  refine ⟨((cleaning_filter_keeps_iff _).2 _).mpr
      ⟨by decide, mkRat 5 1, mkRat 5 1, mkRat 5 1, rfl, rfl, rfl,
        by decide, by decide, by decide, by decide, by decide, by decide⟩,
    fun hm => ?_, fun hm => ?_⟩
  · obtain ⟨-, re, rct, rv, hre, -, -, h1, -⟩ := ((cleaning_filter_keeps_iff _).2 _).mp hm
    injection hre with hre'
    rw [← hre'] at h1
    exact absurd h1 (by decide)
  · obtain ⟨-, re, rct, rv, -, hrct, -, -, -, -, h4, -⟩ :=
      ((cleaning_filter_keeps_iff _).2 _).mp hm
    injection hrct with hrct'
    rw [← hrct'] at h4
    exact absurd h4 (by decide)

/-- C2: in each operation-type partition the cycle numbers are exactly
`1..N` in list order (`N` = partition size), the indexed records are a
permutation of the partition, ranks strictly increase with chronological
order, rows with a missing timestamp rank after every dated row, each
partition's numbering depends only on its own rows, and the global pre-sort
of the metadata has no effect on either partition. -/
theorem classifier_indexer_spec (m : List Record) :
    ((discharge_data m).map Prod.snd
        = List.range' 1 (m.filter (fun r => r.type == "discharge")).length ∧
      (impedance_data m).map Prod.snd
        = List.range' 1 (m.filter (fun r => r.type == "impedance")).length) ∧
    (List.Perm ((discharge_data m).map Prod.fst)
        (m.filter (fun r => r.type == "discharge")) ∧
      List.Perm ((impedance_data m).map Prod.fst)
        (m.filter (fun r => r.type == "impedance"))) ∧
    (∀ x ∈ discharge_data m, ∀ y ∈ discharge_data m,
        timeLT x.1.start_time y.1.start_time = true → x.2 < y.2) ∧
    (∀ x ∈ impedance_data m, ∀ y ∈ impedance_data m,
        timeLT x.1.start_time y.1.start_time = true → x.2 < y.2) ∧
    (∀ x ∈ discharge_data m, ∀ y ∈ discharge_data m,
        x.1.start_time = none → y.1.start_time ≠ none → y.2 < x.2) ∧
    (∀ x ∈ impedance_data m, ∀ y ∈ impedance_data m,
        x.1.start_time = none → y.1.start_time ≠ none → y.2 < x.2) ∧
    (∀ m2 : List Record,
        m.filter (fun r => r.type == "discharge")
            = m2.filter (fun r => r.type == "discharge") →
        discharge_data m = discharge_data m2) ∧
    (∀ m2 : List Record,
        m.filter (fun r => r.type == "impedance")
            = m2.filter (fun r => r.type == "impedance") →
        impedance_data m = impedance_data m2) ∧
    discharge_data (sortByStart m) = discharge_data m ∧
    impedance_data (sortByStart m) = impedance_data m := by
  have hmissing :
      ∀ (part : List Record), ∀ x ∈ assignCyclesFrom 1 (sortByStart part),
        ∀ y ∈ assignCyclesFrom 1 (sortByStart part),
        x.1.start_time = none → y.1.start_time ≠ none → y.2 < x.2 := by
    intro part x hx y hy hxn hyn
    apply indexed_strict_mono part y x hy hx
    cases hys : y.1.start_time with
    | none => exact absurd hys hyn
    | some t =>
      rw [timeLT, hxn]
      rfl
  refine ⟨⟨?_, ?_⟩, ⟨?_, ?_⟩, ?_, ?_, ?_, ?_, ?_, ?_, ?_, ?_⟩
  · rw [discharge_data, assignCyclesFrom_map_snd, sortByStart,
      List.length_insertionSort]
  · rw [impedance_data, assignCyclesFrom_map_snd, sortByStart,
      List.length_insertionSort]
  · rw [discharge_data, assignCyclesFrom_map_fst, sortByStart]
    exact List.perm_insertionSort recLEP _
  · rw [impedance_data, assignCyclesFrom_map_fst, sortByStart]
    exact List.perm_insertionSort recLEP _
  · exact fun x hx y hy h =>
      indexed_strict_mono (m.filter (fun r => r.type == "discharge")) x y hx hy h
  · exact fun x hx y hy h =>
      indexed_strict_mono (m.filter (fun r => r.type == "impedance")) x y hx hy h
  · exact hmissing (m.filter (fun r => r.type == "discharge"))
  · exact hmissing (m.filter (fun r => r.type == "impedance"))
  · intro m2 h
    rw [discharge_data, discharge_data, h]
  · intro m2 h
    rw [impedance_data, impedance_data, h]
  · rw [discharge_data, discharge_data, sortByStart_filter_sortByStart]
  · rw [impedance_data, impedance_data, sortByStart_filter_sortByStart]

/-- C2 witness: on a four-row table (three discharge rows — one undated —
and one impedance row), discharge numbering is 1..3, is unchanged when the
impedance row is removed, increases with time, and puts the undated row
last. -/
theorem classifier_indexer_spec_witness :
    discharge_data
        [⟨"B", "discharge", some ⟨2015, 1, 2, 0, 0, 0, 0⟩, none, none, none, "d2"⟩,
          ⟨"B", "discharge", some ⟨2015, 1, 1, 0, 0, 0, 0⟩, none, none, none, "d1"⟩,
          ⟨"B", "impedance", some ⟨2015, 1, 1, 0, 0, 0, 0⟩, none, none, none, "i1"⟩,
          ⟨"B", "discharge", none, none, none, none, "d3"⟩]
      = discharge_data
        [⟨"B", "discharge", some ⟨2015, 1, 2, 0, 0, 0, 0⟩, none, none, none, "d2"⟩,
          ⟨"B", "discharge", some ⟨2015, 1, 1, 0, 0, 0, 0⟩, none, none, none, "d1"⟩,
          ⟨"B", "discharge", none, none, none, none, "d3"⟩] ∧
    (discharge_data
        [⟨"B", "discharge", some ⟨2015, 1, 2, 0, 0, 0, 0⟩, none, none, none, "d2"⟩,
          ⟨"B", "discharge", some ⟨2015, 1, 1, 0, 0, 0, 0⟩, none, none, none, "d1"⟩,
          ⟨"B", "impedance", some ⟨2015, 1, 1, 0, 0, 0, 0⟩, none, none, none, "i1"⟩,
          ⟨"B", "discharge", none, none, none, none, "d3"⟩]).map Prod.snd
      = [1, 2, 3] ∧
    ((⟨"B", "discharge", some ⟨2015, 1, 1, 0, 0, 0, 0⟩, none, none, none, "d1"⟩, 1)
        : Record × Nat).2
      < ((⟨"B", "discharge", some ⟨2015, 1, 2, 0, 0, 0, 0⟩, none, none, none, "d2"⟩, 2)
        : Record × Nat).2 ∧
    ((⟨"B", "discharge", some ⟨2015, 1, 2, 0, 0, 0, 0⟩, none, none, none, "d2"⟩, 2)
        : Record × Nat).2
      < ((⟨"B", "discharge", none, none, none, none, "d3"⟩, 3) : Record × Nat).2 := by
  refine ⟨(classifier_indexer_spec _).2.2.2.2.2.2.1 _ (by decide), ?_, ?_, ?_⟩
  · rw [(classifier_indexer_spec
      [⟨"B", "discharge", some ⟨2015, 1, 2, 0, 0, 0, 0⟩, none, none, none, "d2"⟩,
        ⟨"B", "discharge", some ⟨2015, 1, 1, 0, 0, 0, 0⟩, none, none, none, "d1"⟩,
        ⟨"B", "impedance", some ⟨2015, 1, 1, 0, 0, 0, 0⟩, none, none, none, "i1"⟩,
        ⟨"B", "discharge", none, none, none, none, "d3"⟩]).1.1]
    decide
  · exact (classifier_indexer_spec
      [⟨"B", "discharge", some ⟨2015, 1, 2, 0, 0, 0, 0⟩, none, none, none, "d2"⟩,
        ⟨"B", "discharge", some ⟨2015, 1, 1, 0, 0, 0, 0⟩, none, none, none, "d1"⟩,
        ⟨"B", "impedance", some ⟨2015, 1, 1, 0, 0, 0, 0⟩, none, none, none, "i1"⟩,
        ⟨"B", "discharge", none, none, none, none, "d3"⟩]).2.2.1
      _ (by decide) _ (by decide) (by decide)
  · exact (classifier_indexer_spec
      [⟨"B", "discharge", some ⟨2015, 1, 2, 0, 0, 0, 0⟩, none, none, none, "d2"⟩,
        ⟨"B", "discharge", some ⟨2015, 1, 1, 0, 0, 0, 0⟩, none, none, none, "d1"⟩,
        ⟨"B", "impedance", some ⟨2015, 1, 1, 0, 0, 0, 0⟩, none, none, none, "i1"⟩,
        ⟨"B", "discharge", none, none, none, none, "d3"⟩]).2.2.2.2.1
      _ (by decide) _ (by decide) (by decide) (by decide)

/-- C3: impedance cycle numbers are assigned before the Cleaning Filter and
are not reassigned afterwards: when the impedance partition sorts to
`[a, b, c]`, the middle row's measurement file is missing, and the outer
rows pass the filter, the cleaned set is exactly the two survivors with
their original ranks 1 and 3 (not renumbered to 1 and 2). -/
theorem number_before_filter (fs : FS) (m : List Record) (a b c : Record)
    (ra rc : Rat)
    (hpart : sortByStart (m.filter (fun r => r.type == "impedance")) = [a, b, c])
    (hb : fs (data_base_path ++ b.filename) = none)
    (hra : get_rectified_impedance fs (data_base_path ++ a.filename) = some ra)
    (hrc : get_rectified_impedance fs (data_base_path ++ c.filename) = some rc)
    (haRe : ∃ v, a.Re = some v ∧ 0 < v ∧ v < 10)
    (haRct : ∃ v, a.Rct = some v ∧ 0 < v ∧ v < 10)
    (hcRe : ∃ v, c.Re = some v ∧ 0 < v ∧ v < 10)
    (hcRct : ∃ v, c.Rct = some v ∧ 0 < v ∧ v < 10)
    (hraB : 0 < ra ∧ ra < 10) (hrcB : 0 < rc ∧ rc < 10) :
    impedance_data_clean fs m = [(a, 1, some ra), (c, 3, some rc)] := by
  obtain ⟨va, hva, hva1, hva2⟩ := haRe
  obtain ⟨wa, hwa, hwa1, hwa2⟩ := haRct
  obtain ⟨vc, hvc, hvc1, hvc2⟩ := hcRe
  obtain ⟨wc, hwc, hwc1, hwc2⟩ := hcRct
  obtain ⟨hra1, hra2⟩ := hraB
  obtain ⟨hrc1, hrc2⟩ := hrcB
  have hb' : get_rectified_impedance fs (data_base_path ++ b.filename) = none := by
    rw [get_rectified_impedance, hb]
  rw [impedance_data_clean, impedance_with_rect, impedance_data, hpart]
  simp [assignCyclesFrom, cleaning_filter, dropnaPred, rangePred, cmpGT, cmpLT,
    hra, hrc, hb', hva, hwa, hvc, hwc, hva1, hva2, hwa1, hwa2, hvc1, hvc2, hwc1, hwc2,
    hra1, hra2, hrc1, hrc2]

/-- C3 witness: three concrete impedance rows whose middle file is absent —
the cleaned output carries ranks 1 and 3. -/
theorem number_before_filter_witness :
    impedance_data_clean
      (fun q =>
        if q = "cleaned_dataset/data/a.csv"
          then some (FileContent.table [("Rectified_Impedance", [PyVal.float (mkRat 2 1)])])
        else if q = "cleaned_dataset/data/c.csv"
          then some (FileContent.table [("Rectified_Impedance", [PyVal.float (mkRat 3 1)])])
        else none)
      [⟨"B", "impedance", some ⟨2015, 1, 1, 0, 0, 0, 0⟩, some (mkRat 5 1),
          some (mkRat 5 1), none, "a.csv"⟩,
        ⟨"B", "impedance", some ⟨2015, 1, 2, 0, 0, 0, 0⟩, some (mkRat 5 1),
          some (mkRat 5 1), none, "b.csv"⟩,
        ⟨"B", "impedance", some ⟨2015, 1, 3, 0, 0, 0, 0⟩, some (mkRat 5 1),
          some (mkRat 5 1), none, "c.csv"⟩]
      = [(⟨"B", "impedance", some ⟨2015, 1, 1, 0, 0, 0, 0⟩, some (mkRat 5 1),
            some (mkRat 5 1), none, "a.csv"⟩, 1, some (mkRat 2 1)),
          (⟨"B", "impedance", some ⟨2015, 1, 3, 0, 0, 0, 0⟩, some (mkRat 5 1),
            some (mkRat 5 1), none, "c.csv"⟩, 3, some (mkRat 3 1))] :=
  number_before_filter _ _
    ⟨"B", "impedance", some ⟨2015, 1, 1, 0, 0, 0, 0⟩, some (mkRat 5 1),
      some (mkRat 5 1), none, "a.csv"⟩
    ⟨"B", "impedance", some ⟨2015, 1, 2, 0, 0, 0, 0⟩, some (mkRat 5 1),
      some (mkRat 5 1), none, "b.csv"⟩
    ⟨"B", "impedance", some ⟨2015, 1, 3, 0, 0, 0, 0⟩, some (mkRat 5 1),
      some (mkRat 5 1), none, "c.csv"⟩
    (mkRat 2 1) (mkRat 3 1)
    (by decide) (by decide) (by decide) (by decide)
    ⟨mkRat 5 1, rfl, by decide, by decide⟩ ⟨mkRat 5 1, rfl, by decide, by decide⟩
    ⟨mkRat 5 1, rfl, by decide, by decide⟩ ⟨mkRat 5 1, rfl, by decide, by decide⟩
    ⟨by decide, by decide⟩ ⟨by decide, by decide⟩

